import Mathlib

/-!
Verification of the Anoma node's transaction-execution pipeline against its
specification.  The host functions of `apps/src/bin/anoma-node/vm/host_env/mod.rs`,
the token validity predicate of `shared/src/ledger/token.rs` and the protocol
adapter `apps/src/lib/node/ledger/shims/abcipp_shim.rs` are embedded as
executable Lean functions.  Supporting modules that the host functions call but
whose sources are not part of the verified tree (the write log, the gas meter,
the bounds-checked guest-memory accessor, key/address parsing and the Borsh
encoding of key-value pairs) are modelled from the specification; each such
definition carries a doc comment saying so.  Rust panics (`expect`,
`unreachable!`) are modelled as `Except.error` aborts: an abort carries no
result state, mirroring a wasm trap that ends the guest invocation.
-/

namespace Anoma

/-- A guest-memory byte, kept as `Nat` (values are expected to be `< 256`;
none of the verified properties depends on the bound). -/
abbrev Byte := Nat

/-- An uninterpreted storage value: a byte string. -/
abbrev Val := List Byte

/-- An established address, as produced by `RawAddress::hash`.  Modelled from
the spec: the address type of `anoma_shared::types` is not under the verified
tree; we use its textual form, which is injective, in place of the hash. -/
abbrev Address := String

/-- Modelled from the spec: `Key` of `anoma_shared::types` is "an ordered
sequence of string segments identifying a storage location". -/
structure Key where
  segments : List String
deriving DecidableEq, Repr

/-- Split a character list at `/` boundaries. -/
def splitSlash : List Char → List String
  | [] => [""]
  | c :: rest =>
    let tail := splitSlash rest
    if c = '/' then "" :: tail
    else
      match tail with
      | [] => [String.mk [c]]
      | s :: ss => (String.mk (c :: s.data)) :: ss

/-- Modelled from the spec: `Key::parse` (not under the verified tree) splits a
slash-delimited segment path; an empty segment makes the string unparsable. -/
def Key.parse (s : String) : Option Key :=
  let segs := splitSlash s.data
  if segs.all (fun seg => seg ≠ "") then some ⟨segs⟩ else none

/-- Modelled from the spec: the gas charged for touching a key is its size. -/
def Key.size (k : Key) : Nat :=
  (k.segments.map String.length).sum + k.segments.length

/-- `StorageModification` of the write log (`write_log.rs` is not under the
verified tree; the variants are fixed by the spec's data model and by the
pattern matches in `host_env/mod.rs`): `Write(bytes)`, `Delete`, or
`InitAccount` holding the new account's validity-predicate code and the
authorizing parent address. -/
inductive StorageModification where
  | write (value : Val)
  | delete
  | initAccount (vp : Val) (parent : Address)
deriving DecidableEq, Repr

/-- Association-list lookup, used for all the key-indexed maps of the model. -/
def assocLookup {α β : Type} [DecidableEq α] : List (α × β) → α → Option β
  | [], _ => none
  | (a, b) :: rest, k => if a = k then some b else assocLookup rest k

/-- Association-list upsert: replaces the live entry for the key, keeping
exactly one modification live per key. -/
def assocInsert {α β : Type} [DecidableEq α] : List (α × β) → α → β → List (α × β)
  | [], k, v => [(k, v)]
  | (a, b) :: rest, k, v =>
    if a = k then (k, v) :: rest else (a, b) :: assocInsert rest k v

/-- Modelled from the spec: the per-transaction `WriteLog` (`write_log.rs` is
not under the verified tree): a map from `Key` to `StorageModification`; a key
present in the log fully shadows committed storage, absence means fall through. -/
structure WriteLog where
  log : List (Key × StorageModification)
deriving DecidableEq, Repr

/-- The byte size of a staged modification, for size-delta accounting. -/
def StorageModification.size : StorageModification → Nat
  | .write value => value.length
  | .delete => 0
  | .initAccount vp _ => vp.length

/-- `WriteLog::read`: the staged modification (or none to signal fall-through)
together with the gas cost of the lookup. -/
def WriteLog.read (wl : WriteLog) (k : Key) : Option StorageModification × Nat :=
  (assocLookup wl.log k, k.size)

/-- `WriteLog::write`: stage `Write(v)` for the key; returns the gas cost and
the byte-size delta against the previously staged modification. -/
def WriteLog.write (wl : WriteLog) (k : Key) (v : Val) : WriteLog × Nat × Int :=
  let old : Nat := ((assocLookup wl.log k).map StorageModification.size).getD 0
  (⟨assocInsert wl.log k (.write v)⟩, k.size + v.length, (v.length : Int) - (old : Int))

/-- `WriteLog::delete`: stage a tombstone for the key. -/
def WriteLog.delete (wl : WriteLog) (k : Key) : WriteLog × Nat × Int :=
  let old : Nat := ((assocLookup wl.log k).map StorageModification.size).getD 0
  (⟨assocInsert wl.log k .delete⟩, k.size, - (old : Int))

/-- The reserved storage key holding an address's validity-predicate code,
following the `Key::parse(addr).push("?")` construction of
`tx_update_validity_predicate` in `host_env/mod.rs`. -/
def vpKey (a : Address) : Key := ⟨[a, "?"]⟩

/-- `WriteLog::init_account`: stage a new account's predicate code under the
account's reserved key, tagged with the authorizing parent address. -/
def WriteLog.init_account (wl : WriteLog) (a : Address) (parent : Address)
    (code : Val) : WriteLog × Nat :=
  (⟨assocInsert wl.log (vpKey a) (.initAccount code parent)⟩, code.length)

/-- Modelled from the spec: the committed key-value backend (consumed as an
external capability).  `entries` is the committed key-value state and
`accounts` the set of established addresses used by existence checks. -/
structure Storage where
  entries : List (Key × Val)
  accounts : List Address
deriving DecidableEq, Repr

/-- `Storage::read`: committed value for a key, with gas. -/
def Storage.read (s : Storage) (k : Key) : Option Val × Nat :=
  (assocLookup s.entries k, k.size)

/-- `Storage::has_key`: committed presence of a key, with gas. -/
def Storage.has_key (s : Storage) (k : Key) : Bool × Nat :=
  ((assocLookup s.entries k).isSome, k.size)

/-- `Storage::exists`: whether an address is established in committed storage,
with gas. -/
def Storage.addrExists (s : Storage) (a : Address) : Bool × Nat :=
  (decide (a ∈ s.accounts), 1)

/-- Modelled from the spec: the gas meter (`shell/gas.rs` is not under the
verified tree): a monotonically non-decreasing counter bounded by a configured
limit. -/
structure GasMeter where
  used : Nat
  limit : Nat
deriving DecidableEq, Repr

/-- `GasMeter::add`: increments the counter; fails once cumulative usage would
exceed the configured limit. -/
def GasMeter.add (m : GasMeter) (g : Nat) : Except Unit GasMeter :=
  if m.limit < m.used + g then .error () else .ok ⟨m.used + g, m.limit⟩

/-- Modelled from the spec: the bounds-checked guest-memory accessor
(`AnomaMemory` of `vm/memory.rs` is not under the verified tree).  Linear
memory is a finite byte array; out-of-bounds access fails; an access costs gas
equal to its length. -/
structure AnomaMemory where
  bytes : List Byte
deriving DecidableEq, Repr

/-- `AnomaMemory::read_bytes`: bytes at `[ptr, ptr+len)` with gas, or failure
when out of bounds. -/
def AnomaMemory.read_bytes (m : AnomaMemory) (ptr len : Nat) :
    Option (Val × Nat) :=
  if ptr + len ≤ m.bytes.length then some ((m.bytes.drop ptr).take len, len)
  else none

/-- Decode guest bytes as a string (byte-per-character; keys and addresses are
ASCII). -/
def bytesToString (bs : Val) : String := String.mk (bs.map Char.ofNat)

/-- Encode a string into guest bytes. -/
def stringToBytes (s : String) : Val := s.data.map Char.toNat

/-- `AnomaMemory::read_string`: a string at `[ptr, ptr+len)` with gas. -/
def AnomaMemory.read_string (m : AnomaMemory) (ptr len : Nat) :
    Option (String × Nat) :=
  (m.read_bytes ptr len).map (fun p => (bytesToString p.1, p.2))

/-- `AnomaMemory::write_bytes`: writes `v` at `ptr`, returning the new memory
and the gas, or failure when out of bounds. -/
def AnomaMemory.write_bytes (m : AnomaMemory) (ptr : Nat) (v : Val) :
    Option (AnomaMemory × Nat) :=
  if ptr + v.length ≤ m.bytes.length then
    some (⟨m.bytes.take ptr ++ v ++ m.bytes.drop (ptr + v.length)⟩, v.length)
  else none

/-- A host-level fault: the guest invocation is aborted non-recoverably
(`expect` / `unreachable!` in the Rust source, i.e. a wasm trap). -/
inductive HostAbort where
  | memoryFault
  | parseFault
  | gasExceeded
  | unreachable
deriving DecidableEq, Repr

/-- One registered prefix iterator: the remaining committed entries of the
underlying range scan, each a raw key string, value and per-step gas. -/
abbrev IterEntry := String × Val × Nat

/-- Modelled from the spec: the id-indexed iterator registry
(`prefix_iter.rs` is not under the verified tree). -/
structure PrefixIterators where
  iterators : List (Nat × List IterEntry)
deriving DecidableEq, Repr

/-- `PrefixIterators::next`: pop the next underlying committed entry of the
iterator with the given id, if any. -/
def PrefixIterators.next (its : PrefixIterators) (id : Nat) :
    Option IterEntry × PrefixIterators :=
  match assocLookup its.iterators id with
  | some (e :: rest) => (some e, ⟨assocInsert its.iterators id rest⟩)
  | _ => (none, its)

/-- The `TxEnv` host environment of `host_env/mod.rs`: committed storage, the
transaction's write log, the iterator registry, the accumulated verifier set,
the block gas meter and the guest memory. -/
structure TxEnv where
  storage : Storage
  write_log : WriteLog
  iterators : PrefixIterators
  verifiers : List Address
  gas_meter : GasMeter
  memory : AnomaMemory
deriving DecidableEq, Repr

/-- `tx_add_gas` of `host_env/mod.rs`: charge the block gas meter; on gas
error the execution is stopped (`unreachable!`), modelled as an abort. -/
def tx_add_gas (env : TxEnv) (used_gas : Nat) : Except HostAbort TxEnv :=
  match env.gas_meter.add used_gas with
  | .ok m => .ok { env with gas_meter := m }
  | .error _ => .error .gasExceeded

/-- The `VpEnv` host environment of `host_env/mod.rs`: the owning address,
read-only committed storage and write log, the iterator registry, the
predicate-scoped gas meter and the guest memory. -/
structure VpEnv where
  addr : Address
  storage : Storage
  write_log : WriteLog
  iterators : PrefixIterators
  gas_meter : GasMeter
  memory : AnomaMemory
deriving DecidableEq, Repr

/-- `vp_add_gas` of `host_env/mod.rs`: charge the predicate gas meter; on gas
error the execution is stopped, modelled as an abort. -/
def vp_add_gas (env : VpEnv) (used_gas : Nat) : Except HostAbort VpEnv :=
  match env.gas_meter.add used_gas with
  | .ok m => .ok { env with gas_meter := m }
  | .error _ => .error .gasExceeded

/-- `tx_storage_read` of `host_env/mod.rs`: read the key string from guest
memory, parse it, consult the write log first and fall through to committed
storage; found data is written to `result_ptr`; returns `1` when found, `0`
when not found. -/
def tx_storage_read (env : TxEnv) (key_ptr key_len result_ptr : Nat) :
    Except HostAbort (TxEnv × Nat) :=
  match env.memory.read_string key_ptr key_len with
  | none => .error .memoryFault
  | some (key_str, gas) =>
    match tx_add_gas env gas with
    | .error e => .error e
    | .ok env =>
      match Key.parse key_str with
      | none => .error .parseFault
      | some key =>
        let (log_val, gas) := env.write_log.read key
        match tx_add_gas env gas with
        | .error e => .error e
        | .ok env =>
          match log_val with
          | some (.write value) =>
            match env.memory.write_bytes result_ptr value with
            | none => .error .memoryFault
            | some (mem, gas) =>
              match tx_add_gas { env with memory := mem } gas with
              | .error e => .error e
              | .ok env => .ok (env, 1)
          | some .delete => .ok (env, 0)
          | some (.initAccount vp _) =>
            match env.memory.write_bytes result_ptr vp with
            | none => .error .memoryFault
            | some (mem, gas) =>
              match tx_add_gas { env with memory := mem } gas with
              | .error e => .error e
              | .ok env => .ok (env, 1)
          | none =>
            let (value, gas) := env.storage.read key
            match tx_add_gas env gas with
            | .error e => .error e
            | .ok env =>
              match value with
              | some value =>
                match env.memory.write_bytes result_ptr value with
                | none => .error .memoryFault
                | some (mem, gas) =>
                  match tx_add_gas { env with memory := mem } gas with
                  | .error e => .error e
                  | .ok env => .ok (env, 1)
              | none => .ok (env, 0)

/-- `tx_storage_read_varlen` of `host_env/mod.rs`: same data semantics as
`tx_storage_read`, but returns the byte length of the data when found and `-1`
when not found. -/
def tx_storage_read_varlen (env : TxEnv) (key_ptr key_len result_ptr : Nat) :
    Except HostAbort (TxEnv × Int) :=
  match env.memory.read_string key_ptr key_len with
  | none => .error .memoryFault
  | some (key_str, gas) =>
    match tx_add_gas env gas with
    | .error e => .error e
    | .ok env =>
      match Key.parse key_str with
      | none => .error .parseFault
      | some key =>
        let (log_val, gas) := env.write_log.read key
        match tx_add_gas env gas with
        | .error e => .error e
        | .ok env =>
          match log_val with
          | some (.write value) =>
            let len : Int := value.length
            match env.memory.write_bytes result_ptr value with
            | none => .error .memoryFault
            | some (mem, gas) =>
              match tx_add_gas { env with memory := mem } gas with
              | .error e => .error e
              | .ok env => .ok (env, len)
          | some .delete => .ok (env, -1)
          | some (.initAccount vp _) =>
            let len : Int := vp.length
            match env.memory.write_bytes result_ptr vp with
            | none => .error .memoryFault
            | some (mem, gas) =>
              match tx_add_gas { env with memory := mem } gas with
              | .error e => .error e
              | .ok env => .ok (env, len)
          | none =>
            let (value, gas) := env.storage.read key
            match tx_add_gas env gas with
            | .error e => .error e
            | .ok env =>
              match value with
              | some value =>
                let len : Int := value.length
                match env.memory.write_bytes result_ptr value with
                | none => .error .memoryFault
                | some (mem, gas) =>
                  match tx_add_gas { env with memory := mem } gas with
                  | .error e => .error e
                  | .ok env => .ok (env, len)
              | none => .ok (env, -1)

/-- `tx_storage_write` of `host_env/mod.rs`: read the key string and value
bytes from guest memory and stage `Write(value)` in the transaction's write
log; committed storage is never touched. -/
def tx_storage_write (env : TxEnv) (key_ptr key_len val_ptr val_len : Nat) :
    Except HostAbort TxEnv :=
  match env.memory.read_string key_ptr key_len with
  | none => .error .memoryFault
  | some (key_str, gas) =>
    match tx_add_gas env gas with
    | .error e => .error e
    | .ok env =>
      match env.memory.read_bytes val_ptr val_len with
      | none => .error .memoryFault
      | some (value, gas) =>
        match tx_add_gas env gas with
        | .error e => .error e
        | .ok env =>
          match Key.parse key_str with
          | none => .error .parseFault
          | some key =>
            let (wl, gas, _size_diff) := env.write_log.write key value
            tx_add_gas { env with write_log := wl } gas

/-- `tx_storage_delete` of `host_env/mod.rs`: stage a tombstone for the key in
the transaction's write log; returns `1`. -/
def tx_storage_delete (env : TxEnv) (key_ptr key_len : Nat) :
    Except HostAbort (TxEnv × Nat) :=
  match env.memory.read_string key_ptr key_len with
  | none => .error .memoryFault
  | some (key_str, gas) =>
    match tx_add_gas env gas with
    | .error e => .error e
    | .ok env =>
      match Key.parse key_str with
      | none => .error .parseFault
      | some key =>
        let (wl, gas, _size_diff) := env.write_log.delete key
        match tx_add_gas { env with write_log := wl } gas with
        | .error e => .error e
        | .ok env => .ok (env, 1)

/-- `vp_storage_read_pre` of `host_env/mod.rs`: read the prior state (before
tx execution); only committed storage is consulted. Returns `1` when found,
`0` when not found. -/
def vp_storage_read_pre (env : VpEnv) (key_ptr key_len result_ptr : Nat) :
    Except HostAbort (VpEnv × Nat) :=
  match env.memory.read_string key_ptr key_len with
  | none => .error .memoryFault
  | some (key_str, gas) =>
    match vp_add_gas env gas with
    | .error e => .error e
    | .ok env =>
      match Key.parse key_str with
      | none => .error .parseFault
      | some key =>
        let (value, gas) := env.storage.read key
        match vp_add_gas env gas with
        | .error e => .error e
        | .ok env =>
          match value with
          | some value =>
            match env.memory.write_bytes result_ptr value with
            | none => .error .memoryFault
            | some (mem, gas) =>
              match vp_add_gas { env with memory := mem } gas with
              | .error e => .error e
              | .ok env => .ok (env, 1)
          | none => .ok (env, 0)

/-- `vp_storage_read_pre_varlen` of `host_env/mod.rs`: same data semantics as
`vp_storage_read_pre`; returns the byte length of the data when found and
`-1` when not found. -/
def vp_storage_read_pre_varlen (env : VpEnv) (key_ptr key_len result_ptr : Nat) :
    Except HostAbort (VpEnv × Int) :=
  match env.memory.read_string key_ptr key_len with
  | none => .error .memoryFault
  | some (key_str, gas) =>
    match vp_add_gas env gas with
    | .error e => .error e
    | .ok env =>
      match Key.parse key_str with
      | none => .error .parseFault
      | some key =>
        let (value, gas) := env.storage.read key
        match vp_add_gas env gas with
        | .error e => .error e
        | .ok env =>
          match value with
          | some value =>
            let len : Int := value.length
            match env.memory.write_bytes result_ptr value with
            | none => .error .memoryFault
            | some (mem, gas) =>
              match vp_add_gas { env with memory := mem } gas with
              | .error e => .error e
              | .ok env => .ok (env, len)
          | none => .ok (env, -1)

/-- `vp_storage_read_post` of `host_env/mod.rs`: read the posterior state
(after tx execution); the write log is consulted first and committed storage
only on fall-through. Returns `1` when found, `0` when not found. -/
def vp_storage_read_post (env : VpEnv) (key_ptr key_len result_ptr : Nat) :
    Except HostAbort (VpEnv × Nat) :=
  match env.memory.read_string key_ptr key_len with
  | none => .error .memoryFault
  | some (key_str, gas) =>
    match vp_add_gas env gas with
    | .error e => .error e
    | .ok env =>
      match Key.parse key_str with
      | none => .error .parseFault
      | some key =>
        let (log_val, gas) := env.write_log.read key
        match vp_add_gas env gas with
        | .error e => .error e
        | .ok env =>
          match log_val with
          | some (.write value) =>
            match env.memory.write_bytes result_ptr value with
            | none => .error .memoryFault
            | some (mem, gas) =>
              match vp_add_gas { env with memory := mem } gas with
              | .error e => .error e
              | .ok env => .ok (env, 1)
          | some .delete => .ok (env, 0)
          | some (.initAccount vp _) =>
            match env.memory.write_bytes result_ptr vp with
            | none => .error .memoryFault
            | some (mem, gas) =>
              match vp_add_gas { env with memory := mem } gas with
              | .error e => .error e
              | .ok env => .ok (env, 1)
          | none =>
            let (value, gas) := env.storage.read key
            match vp_add_gas env gas with
            | .error e => .error e
            | .ok env =>
              match value with
              | some value =>
                match env.memory.write_bytes result_ptr value with
                | none => .error .memoryFault
                | some (mem, gas) =>
                  match vp_add_gas { env with memory := mem } gas with
                  | .error e => .error e
                  | .ok env => .ok (env, 1)
              | none => .ok (env, 0)

/-- `vp_storage_read_post_varlen` of `host_env/mod.rs`: same data semantics as
`vp_storage_read_post`; returns the byte length of the data when found and
`-1` when not found. -/
def vp_storage_read_post_varlen (env : VpEnv) (key_ptr key_len result_ptr : Nat) :
    Except HostAbort (VpEnv × Int) :=
  match env.memory.read_string key_ptr key_len with
  | none => .error .memoryFault
  | some (key_str, gas) =>
    match vp_add_gas env gas with
    | .error e => .error e
    | .ok env =>
      match Key.parse key_str with
      | none => .error .parseFault
      | some key =>
        let (log_val, gas) := env.write_log.read key
        match vp_add_gas env gas with
        | .error e => .error e
        | .ok env =>
          match log_val with
          | some (.write value) =>
            let len : Int := value.length
            match env.memory.write_bytes result_ptr value with
            | none => .error .memoryFault
            | some (mem, gas) =>
              match vp_add_gas { env with memory := mem } gas with
              | .error e => .error e
              | .ok env => .ok (env, len)
          | some .delete => .ok (env, -1)
          | some (.initAccount vp _) =>
            let len : Int := vp.length
            match env.memory.write_bytes result_ptr vp with
            | none => .error .memoryFault
            | some (mem, gas) =>
              match vp_add_gas { env with memory := mem } gas with
              | .error e => .error e
              | .ok env => .ok (env, len)
          | none =>
            let (value, gas) := env.storage.read key
            match vp_add_gas env gas with
            | .error e => .error e
            | .ok env =>
              match value with
              | some value =>
                let len : Int := value.length
                match env.memory.write_bytes result_ptr value with
                | none => .error .memoryFault
                | some (mem, gas) =>
                  match vp_add_gas { env with memory := mem } gas with
                  | .error e => .error e
                  | .ok env => .ok (env, len)
              | none => .ok (env, -1)

/-- Modelled from the spec: the Borsh serialization of a `KeyVal` pair
(`anoma_shared::vm_memory::KeyVal`, not under the verified tree), as an
injective length-delimited encoding. -/
def keyValEncode (key : String) (v : Val) : Val :=
  key.length :: stringToBytes key ++ v.length :: v

/-- The write-log-shadowed iterator advance loop shared verbatim (up to the
gas meter charged) by `tx_storage_iter_next` and `vp_storage_iter_post_next`
of `host_env/mod.rs`: pop underlying committed entries until one is visible —
a staged `Write` substitutes its value, a staged `Delete` or `InitAccount`
skips the entry, an absent log entry keeps the committed value.  Returns the
updated gas meter and memory, the remaining underlying entries and the status
(`1` found, `0` exhausted). -/
def iterShadowAdvance (wl : WriteLog) (gm : GasMeter) (mem : AnomaMemory)
    (result_ptr : Nat) :
    List IterEntry → Except HostAbort (GasMeter × AnomaMemory × List IterEntry × Nat)
  | [] => .ok (gm, mem, [], 0)
  | (key, val, iter_gas) :: rest =>
    match Key.parse key with
    | none => .error .parseFault
    | some k =>
      let (log_val, log_gas) := wl.read k
      match gm.add (iter_gas + log_gas) with
      | .error _ => .error .gasExceeded
      | .ok gm =>
        match log_val with
        | some (.write value) =>
          match mem.write_bytes result_ptr (keyValEncode key value) with
          | none => .error .memoryFault
          | some (mem, gas) =>
            match gm.add gas with
            | .error _ => .error .gasExceeded
            | .ok gm => .ok (gm, mem, rest, 1)
        | some .delete => iterShadowAdvance wl gm mem result_ptr rest
        | some (.initAccount _ _) => iterShadowAdvance wl gm mem result_ptr rest
        | none =>
          match mem.write_bytes result_ptr (keyValEncode key val) with
          | none => .error .memoryFault
          | some (mem, gas) =>
            match gm.add gas with
            | .error _ => .error .gasExceeded
            | .ok gm => .ok (gm, mem, rest, 1)

/-- `tx_storage_iter_next` of `host_env/mod.rs`: advance the registered
iterator, shadowing each committed entry through the transaction's write log,
looping until a visible entry is produced or the scan is exhausted. -/
def tx_storage_iter_next (env : TxEnv) (iter_id result_ptr : Nat) :
    Except HostAbort (TxEnv × Nat) :=
  match assocLookup env.iterators.iterators iter_id with
  | none => .ok (env, 0)
  | some entries =>
    match iterShadowAdvance env.write_log env.gas_meter env.memory result_ptr entries with
    | .error e => .error e
    | .ok (gm, mem, rest, ret) =>
      .ok ({ env with
             gas_meter := gm
             memory := mem
             iterators := ⟨assocInsert env.iterators.iterators iter_id rest⟩ }, ret)

/-- `vp_storage_iter_post_next` of `host_env/mod.rs`: advance the registered
iterator in the posterior view, shadowing each committed entry through the
pending transaction's write log, exactly as the transaction-context advance. -/
def vp_storage_iter_post_next (env : VpEnv) (iter_id result_ptr : Nat) :
    Except HostAbort (VpEnv × Nat) :=
  match assocLookup env.iterators.iterators iter_id with
  | none => .ok (env, 0)
  | some entries =>
    match iterShadowAdvance env.write_log env.gas_meter env.memory result_ptr entries with
    | .error e => .error e
    | .ok (gm, mem, rest, ret) =>
      .ok ({ env with
             gas_meter := gm
             memory := mem
             iterators := ⟨assocInsert env.iterators.iterators iter_id rest⟩ }, ret)

/-- Modelled from the spec: `RawAddress` of `anoma_shared::types` (not under
the verified tree): a hierarchical address of dot-separated segments where a
sub-account's parent is obtained by dropping the first segment. -/
structure RawAddress where
  segments : List String
deriving DecidableEq, Repr

/-- Split a character list at `.` boundaries. -/
def splitDot : List Char → List String
  | [] => [""]
  | c :: rest =>
    let tail := splitDot rest
    if c = '.' then "" :: tail
    else
      match tail with
      | [] => [String.mk [c]]
      | s :: ss => (String.mk (c :: s.data)) :: ss

/-- `RawAddress::parse`: an address string splits into nonempty dot-separated
segments; otherwise it is unparsable. -/
def RawAddress.parse (s : String) : Option RawAddress :=
  let segs := splitDot s.data
  if segs.all (fun seg => seg ≠ "") then some ⟨segs⟩ else none

/-- `RawAddress::parent`: the authorizing parent address. -/
def RawAddress.parent (a : RawAddress) : RawAddress := ⟨a.segments.drop 1⟩

/-- Join segments back with dots. -/
def joinDots : List String → String
  | [] => ""
  | [s] => s
  | s :: rest => s ++ "." ++ joinDots rest

/-- `RawAddress::hash`: the established `Address` of a raw address; modelled
as the injective textual form. -/
def RawAddress.hash (a : RawAddress) : Address := joinDots a.segments

/-- `HashSet::insert` on the verifier set, modelled on a duplicate-free list. -/
def insertAddr (a : Address) (l : List Address) : List Address :=
  if a ∈ l then l else l ++ [a]

/-- `tx_insert_verifier` of `host_env/mod.rs`: read an address string from
guest memory, parse it and add its hash to the transaction's verifier set. -/
def tx_insert_verifier (env : TxEnv) (addr_ptr addr_len : Nat) :
    Except HostAbort TxEnv :=
  match env.memory.read_string addr_ptr addr_len with
  | none => .error .memoryFault
  | some (addr_str, gas) =>
    match tx_add_gas env gas with
    | .error e => .error e
    | .ok env =>
      match RawAddress.parse addr_str with
      | none => .error .parseFault
      | some addr =>
        tx_add_gas { env with verifiers := insertAddr addr.hash env.verifiers }
          addr_len

/-- `tx_init_account` of `host_env/mod.rs`: read the new address and predicate
code from guest memory; check that the authorizing parent address exists in
**committed** storage (the write log is not consulted) — if it does not, the
invocation is aborted (`unreachable!`); otherwise stage the `InitAccount`
modification tagged with the parent and insert the parent into the verifier
set. -/
def tx_init_account (env : TxEnv) (addr_ptr addr_len code_ptr code_len : Nat) :
    Except HostAbort TxEnv :=
  match env.memory.read_string addr_ptr addr_len with
  | none => .error .memoryFault
  | some (addr_str, gas) =>
    match tx_add_gas env gas with
    | .error e => .error e
    | .ok env =>
      match env.memory.read_bytes code_ptr code_len with
      | none => .error .memoryFault
      | some (code, gas) =>
        match tx_add_gas env gas with
        | .error e => .error e
        | .ok env =>
          match RawAddress.parse addr_str with
          | none => .error .parseFault
          | some addr =>
            let parent_addr := addr.parent
            let parent_addr_hash := parent_addr.hash
            let (parent_exists, gas) := env.storage.addrExists parent_addr_hash
            match tx_add_gas env gas with
            | .error e => .error e
            | .ok env =>
              if parent_exists then
                let (wl, gas) :=
                  env.write_log.init_account addr.hash parent_addr_hash code
                tx_add_gas
                  { env with
                    write_log := wl
                    verifiers := insertAddr parent_addr.hash env.verifiers } gas
              else .error .unreachable

/-- Stated from the spec's words, for the refinement claim about the two
return-convention families: the shared *data semantics* of the transaction
read — the found data (or its absence), with all guest-memory, gas and
write-log effects — of which the fixed-size and variable-length reads are the
two status encodings. -/
def txReadData (env : TxEnv) (key_ptr key_len result_ptr : Nat) :
    Except HostAbort (TxEnv × Option Val) :=
  match env.memory.read_string key_ptr key_len with
  | none => .error .memoryFault
  | some (key_str, gas) =>
    match tx_add_gas env gas with
    | .error e => .error e
    | .ok env =>
      match Key.parse key_str with
      | none => .error .parseFault
      | some key =>
        let (log_val, gas) := env.write_log.read key
        match tx_add_gas env gas with
        | .error e => .error e
        | .ok env =>
          match log_val with
          | some (.write value) =>
            match env.memory.write_bytes result_ptr value with
            | none => .error .memoryFault
            | some (mem, gas) =>
              match tx_add_gas { env with memory := mem } gas with
              | .error e => .error e
              | .ok env => .ok (env, some value)
          | some .delete => .ok (env, none)
          | some (.initAccount vp _) =>
            match env.memory.write_bytes result_ptr vp with
            | none => .error .memoryFault
            | some (mem, gas) =>
              match tx_add_gas { env with memory := mem } gas with
              | .error e => .error e
              | .ok env => .ok (env, some vp)
          | none =>
            let (value, gas) := env.storage.read key
            match tx_add_gas env gas with
            | .error e => .error e
            | .ok env =>
              match value with
              | some value =>
                match env.memory.write_bytes result_ptr value with
                | none => .error .memoryFault
                | some (mem, gas) =>
                  match tx_add_gas { env with memory := mem } gas with
                  | .error e => .error e
                  | .ok env => .ok (env, some value)
              | none => .ok (env, none)

/-- Stated from the spec's words: the shared data semantics of the predicate
pre-view read. -/
def vpReadPreData (env : VpEnv) (key_ptr key_len result_ptr : Nat) :
    Except HostAbort (VpEnv × Option Val) :=
  match env.memory.read_string key_ptr key_len with
  | none => .error .memoryFault
  | some (key_str, gas) =>
    match vp_add_gas env gas with
    | .error e => .error e
    | .ok env =>
      match Key.parse key_str with
      | none => .error .parseFault
      | some key =>
        let (value, gas) := env.storage.read key
        match vp_add_gas env gas with
        | .error e => .error e
        | .ok env =>
          match value with
          | some value =>
            match env.memory.write_bytes result_ptr value with
            | none => .error .memoryFault
            | some (mem, gas) =>
              match vp_add_gas { env with memory := mem } gas with
              | .error e => .error e
              | .ok env => .ok (env, some value)
          | none => .ok (env, none)

/-- Stated from the spec's words: the shared data semantics of the predicate
post-view read. -/
def vpReadPostData (env : VpEnv) (key_ptr key_len result_ptr : Nat) :
    Except HostAbort (VpEnv × Option Val) :=
  match env.memory.read_string key_ptr key_len with
  | none => .error .memoryFault
  | some (key_str, gas) =>
    match vp_add_gas env gas with
    | .error e => .error e
    | .ok env =>
      match Key.parse key_str with
      | none => .error .parseFault
      | some key =>
        let (log_val, gas) := env.write_log.read key
        match vp_add_gas env gas with
        | .error e => .error e
        | .ok env =>
          match log_val with
          | some (.write value) =>
            match env.memory.write_bytes result_ptr value with
            | none => .error .memoryFault
            | some (mem, gas) =>
              match vp_add_gas { env with memory := mem } gas with
              | .error e => .error e
              | .ok env => .ok (env, some value)
          | some .delete => .ok (env, none)
          | some (.initAccount vp _) =>
            match env.memory.write_bytes result_ptr vp with
            | none => .error .memoryFault
            | some (mem, gas) =>
              match vp_add_gas { env with memory := mem } gas with
              | .error e => .error e
              | .ok env => .ok (env, some vp)
          | none =>
            let (value, gas) := env.storage.read key
            match vp_add_gas env gas with
            | .error e => .error e
            | .ok env =>
              match value with
              | some value =>
                match env.memory.write_bytes result_ptr value with
                | none => .error .memoryFault
                | some (mem, gas) =>
                  match vp_add_gas { env with memory := mem } gas with
                  | .error e => .error e
                  | .ok env => .ok (env, some value)
              | none => .ok (env, none)

/-- The fixed-size status encoding: `1` = found, `0` = not found. -/
def encFixed : Option Val → Nat
  | some _ => 1
  | none => 0

/-- The variable-length status encoding: the non-negative byte length of the
data when found, `-1` when not found. -/
def encVarlen : Option Val → Int
  | some v => v.length
  | none => -1

/-- The pure specification of one write-log-shadowed iterator advance: the
first visible entry (with a staged `Write` value substituted; staged `Delete`
and `InitAccount` entries skipped) together with the remaining underlying
entries, or `none` when no visible entry remains.  Entries whose raw key does
not parse make the scan abort in the implementation, so they yield `none`
here; the characterization theorem is conditioned on a successful run. -/
def firstVisible (wl : WriteLog) :
    List IterEntry → Option ((String × Val) × List IterEntry)
  | [] => none
  | (key, val, _) :: rest =>
    match Key.parse key with
    | none => none
    | some k =>
      match (wl.read k).1 with
      | some (.write value) => some ((key, value), rest)
      | some .delete => firstVisible wl rest
      | some (.initAccount _ _) => firstVisible wl rest
      | none => some ((key, val), rest)

/-- The outcome of a posterior-view read whose key carries a staged
modification: it is a function of the staged modification (and of the guest
memory and gas meter) alone — committed storage is never consulted.  Mirrors
the three `Some`-branches of `vp_storage_read_post`. -/
def stagedReadOutcome (env : VpEnv) (m : StorageModification) (result_ptr : Nat) :
    Except HostAbort (VpEnv × Nat) :=
  match m with
  | .write value =>
    match env.memory.write_bytes result_ptr value with
    | none => .error .memoryFault
    | some (mem, gas) =>
      match vp_add_gas { env with memory := mem } gas with
      | .error e => .error e
      | .ok env => .ok (env, 1)
  | .delete => .ok (env, 0)
  | .initAccount vp _ =>
    match env.memory.write_bytes result_ptr vp with
    | none => .error .memoryFault
    | some (mem, gas) =>
      match vp_add_gas { env with memory := mem } gas with
      | .error e => .error e
      | .ok env => .ok (env, 1)

/-- Modelled from the spec: the token amount (`types::token::Amount`, not
under the verified tree), a fixed-precision non-negative quantity whose
`change` is its signed value. -/
structure Amount where
  micro : Nat
deriving DecidableEq, Repr

/-- `Amount::change`: the signed balance change contributed by this amount. -/
def Amount.change (a : Amount) : Int := a.micro

/-- Accumulate decimal digits; any non-digit character fails the parse. -/
def digitsToNat : List Char → Nat → Option Nat
  | [], acc => some acc
  | c :: rest, acc =>
    if '0' ≤ c ∧ c ≤ '9' then digitsToNat rest (acc * 10 + (c.toNat - '0'.toNat))
    else none

/-- `Amount::from_str` (modelled): parse a non-empty decimal string. -/
def Amount.from_str (s : String) : Option Amount :=
  if s.data = [] then none else (digitsToNat s.data 0).map Amount.mk

/-- `Address::decode` (modelled): a non-empty string decodes to the address it
denotes. -/
def addressDecode (s : String) : Option Address :=
  if s = "" then none else some s

/-- The burn internal address (`InternalAddress::Burn`). -/
def burnAddress : Address := "#burn"

/-- The mint internal address (`InternalAddress::Mint`). -/
def mintAddress : Address := "#mint"

/-- `InternalAddress::ibc_escrow_address`: the escrow account of a port and
channel. -/
def ibcEscrowAddress (port channel : String) : Address :=
  "#escrow/" ++ port ++ "/" ++ channel

/-- A token balance location: `token::balance_key(token, owner)`. -/
abbrev TokenKey := Address × Address

/-- `token::balance_key` (modelled): the balance storage key of an owner's
holding of a token. -/
def balance_key (token owner : Address) : TokenKey := (token, owner)

/-- Modelled from the spec: the native-VP context's dual view
(`native_vp::Ctx`, not under the verified tree): `read_pre` queries the
balances of committed storage, `read_post` the write-log-shadowed balances;
the Borsh decoding of stored amounts is the identity in the model. -/
structure TokenCtx where
  pre_bal : List (TokenKey × Amount)
  post_bal : List (TokenKey × Amount)
deriving DecidableEq, Repr

/-- `Ctx::read_pre` on a balance key. -/
def TokenCtx.read_pre (ctx : TokenCtx) (k : TokenKey) : Option Amount :=
  assocLookup ctx.pre_bal k

/-- `Ctx::read_post` on a balance key. -/
def TokenCtx.read_post (ctx : TokenCtx) (k : TokenKey) : Option Amount :=
  assocLookup ctx.post_bal k

/-- `FungibleTokenPacketData` of the ICS20 transfer (modelled from the IBC
crate, not under the verified tree). -/
structure FungibleTokenPacketData where
  denomination : String
  amount : String
  sender : String
  receiver : String
deriving DecidableEq, Repr

/-- `MsgTransfer` (modelled): the ICS20 transfer message; the conversion
`FungibleTokenPacketData::from(msg)` is carried as the `packetData` field. -/
structure MsgTransfer where
  source_port : String
  source_channel : String
  packetData : FungibleTokenPacketData
deriving DecidableEq, Repr

/-- An ICS04 `Packet` (modelled); the `serde_json` decoding of its data is
carried as the already-decoded `data` field. -/
structure Packet where
  source_port : String
  source_channel : String
  destination_port : String
  destination_channel : String
  data : FungibleTokenPacketData
deriving DecidableEq, Repr

/-- The error taxonomy of the token VP (`token.rs`). -/
inductive TokenError where
  | noToken
  | address
  | amount
  | tokenTransfer (data : FungibleTokenPacketData)
deriving DecidableEq, Repr

/-- `Token::validate_sending_token` of `shared/src/ledger/token.rs`: derive
the token and claimed amount from the packet data, pick the single target
account (burn for the sink zone, the port/channel escrow for the source
zone), and accept iff the pre/post balance delta on that one key equals the
claimed amount. -/
def validate_sending_token (ctx : TokenCtx) (msg : MsgTransfer) :
    Except TokenError Bool :=
  let data := msg.packetData
  match (splitSlash data.denomination.data).getLast? with
  | none => .error .noToken
  | some token_str =>
    match addressDecode token_str with
    | none => .error .address
    | some token =>
      match Amount.from_str data.amount with
      | none => .error .amount
      | some amount =>
        let pfx := msg.source_port ++ "/" ++ msg.source_channel ++ "/"
        let target :=
          if pfx.data.isPrefixOf data.denomination.data then burnAddress
          else ibcEscrowAddress msg.source_port msg.source_channel
        let target_key := balance_key token target
        let pre := (ctx.read_pre target_key).getD ⟨0⟩
        let post := (ctx.read_post target_key).getD ⟨0⟩
        let change := post.change - pre.change
        if change = amount.change then .ok true
        else .error (.tokenTransfer data)

/-- `Token::validate_receiving_token` of `shared/src/ledger/token.rs`: derive
the token and claimed amount from the received packet, pick the single source
account (the destination escrow when this chain is the source, mint
otherwise), and accept iff the pre/post balance delta on that one key equals
the claimed amount. -/
def validate_receiving_token (ctx : TokenCtx) (packet : Packet) :
    Except TokenError Bool :=
  let data := packet.data
  match (splitSlash data.denomination.data).getLast? with
  | none => .error .noToken
  | some token_str =>
    match addressDecode token_str with
    | none => .error .address
    | some token =>
      match Amount.from_str data.amount with
      | none => .error .amount
      | some amount =>
        let pfx := packet.source_port ++ "/" ++ packet.source_channel ++ "/"
        let source :=
          if pfx.data.isPrefixOf data.denomination.data then
            ibcEscrowAddress packet.destination_port packet.destination_channel
          else mintAddress
        let source_key := balance_key token source
        let pre := (ctx.read_pre source_key).getD ⟨0⟩
        let post := (ctx.read_post source_key).getD ⟨0⟩
        let change := post.change - pre.change
        if change = amount.change then .ok true
        else .error (.tokenTransfer data)

/-- The result of processing one transaction (`shims` types; only the
response code matters to the adapter). -/
structure TxResult where
  code : Nat
deriving DecidableEq, Repr

/-- A buffered processed transaction (`request::ProcessedTx`). -/
structure ProcessedTx where
  tx : Val
  result : TxResult
deriving DecidableEq, Repr

/-- The data of a `BeginBlock` request forwarded to the finalize call. -/
structure BeginBlock where
  hash : Val
  header : Val
  byzantine_validators : Val
deriving DecidableEq, Repr

/-- The unified `FinalizeBlock` request the adapter builds at `EndBlock`. -/
structure FinalizeBlock where
  hash : Val
  header : Val
  byzantine_validators : Val
  txs : List ProcessedTx
  reject_all_decrypted : Bool
deriving DecidableEq, Repr

/-- Modelled from the spec: the Shell consumed by the adapter (not decided by
the adapter's code): an opaque responder mapping each transaction to its
`ProcessProposal` result, an observable flag recording `reset_queue`, and the
log of `FinalizeBlock` requests it received. -/
structure Shell where
  process_result : Val → TxResult
  queue_reset : Bool
  finalized : List FinalizeBlock

/-- `Shell::reset_queue`: reset the decryption queue (observable flag). -/
def Shell.reset_queue (s : Shell) : Shell := { s with queue_reset := true }

/-- The consensus-engine requests the adapter distinguishes. -/
inductive Req where
  | beginBlock (b : BeginBlock)
  | deliverTx (tx : Val)
  | endBlock (height : Int)
  | other

/-- The adapter's responses; `DeliverTx` and `BeginBlock` responses are
`Default::default()` and carry no information. -/
inductive Resp where
  | beginBlock
  | deliverTx
  | endBlock (fb : FinalizeBlock)
  | other

/-- The `AbcippShim` state of `abcipp_shim.rs`: the wrapped shell, the saved
`BeginBlock` data and the per-transaction results buffered for the block. -/
structure AbcippShim where
  service : Shell
  begin_block_request : Option BeginBlock
  block_txs : List ProcessedTx

/-- `AbcippShim::call` of `abcipp_shim.rs`.  `BeginBlock` saves its data for
the later finalize call; `DeliverTx` reports the transaction to the shell's
`ProcessProposal` and buffers the result; `EndBlock` swaps the buffer out,
derives `out_of_order` (any result code above 3), resets the shell's
decryption queue when out of order, and forwards the buffered results
unchanged in a single `FinalizeBlock` call flagged `reject_all_decrypted`.
Panics (a non-convertible height, a missing begin-block request) are `none`. -/
def AbcippShim.call (shim : AbcippShim) : Req → Option (AbcippShim × Resp)
  | .beginBlock b => some ({ shim with begin_block_request := some b }, .beginBlock)
  | .deliverTx tx =>
    let result := shim.service.process_result tx
    some ({ shim with block_txs := shim.block_txs ++ [⟨tx, result⟩] }, .deliverTx)
  | .endBlock height =>
    if height < 0 then none
    else
      let txs := shim.block_txs
      let out_of_order := txs.any (fun t => 3 < t.result.code)
      let service :=
        if out_of_order then shim.service.reset_queue else shim.service
      match shim.begin_block_request with
      | none => none
      | some b =>
        let fb : FinalizeBlock :=
          ⟨b.hash, b.header, b.byzantine_validators, txs, out_of_order⟩
        some ({ service := { service with finalized := service.finalized ++ [fb] }
                begin_block_request := none
                block_txs := [] }, .endBlock fb)
  | .other => some (shim, .other)

/-- Run the adapter over a request sequence, stopping at the first panic. -/
def AbcippShim.run (shim : AbcippShim) : List Req → Option AbcippShim
  | [] => some shim
  | r :: rs =>
    match shim.call r with
    | some (shim', _) => shim'.run rs
    | none => none

/-- The iteration scenario of the spec: staged `write(k1, "x")` and
`delete(k2)` over committed keys `{k1: "a", k2: "b", k3: "c"}` (values as
their ASCII bytes). -/
def iterScenarioLog : WriteLog :=
  ((((⟨[]⟩ : WriteLog).write ⟨["k1"]⟩ [120]).1).delete ⟨["k2"]⟩).1

/-- The underlying committed range scan of the iteration scenario, in the
physical storage order `k1, k2, k3`. -/
def iterScenarioEntries : List IterEntry :=
  [("k1", [97], 1), ("k2", [98], 1), ("k3", [99], 1)]

/-- The transaction environment of the iteration scenario: the scan above is
registered under iterator id 7. -/
def iterScenarioEnv : TxEnv :=
  ⟨⟨[(⟨["k1"]⟩, [97]), (⟨["k2"]⟩, [98]), (⟨["k3"]⟩, [99])], []⟩,
    iterScenarioLog, ⟨[(7, iterScenarioEntries)]⟩, [], ⟨0, 1000⟩,
    ⟨[0, 0, 0, 0, 0, 0]⟩⟩

/-- The single target account whose balance delta `validate_sending_token`
examines: burn for the sink zone, the source port/channel escrow otherwise
(the target selection of `token.rs`). -/
def sendTarget (msg : MsgTransfer) : Address :=
  if (msg.source_port ++ "/" ++ msg.source_channel ++ "/").data.isPrefixOf
      msg.packetData.denomination.data then burnAddress
  else ibcEscrowAddress msg.source_port msg.source_channel

/-- The single source account whose balance delta `validate_receiving_token`
examines: the destination escrow when this chain is the source, mint
otherwise (the source selection of `token.rs`). -/
def recvSource (packet : Packet) : Address :=
  if (packet.source_port ++ "/" ++ packet.source_channel ++ "/").data.isPrefixOf
      packet.data.denomination.data then
    ibcEscrowAddress packet.destination_port packet.destination_channel
  else mintAddress

/-- A concrete transfer claiming 10 `tok` from sender `alice`: source zone,
so the examined account is the escrow of port `p`, channel `c`. -/
def tokenScenarioMsg : MsgTransfer := ⟨"p", "c", ⟨"tok", "10", "alice", "bob"⟩⟩

/-- Pre/post balances in which the escrow gained exactly 10 `tok` while the
sender `alice`'s balance is unchanged at 100. -/
def tokenScenarioCtx : TokenCtx :=
  ⟨[(("tok", "#escrow/p/c"), ⟨0⟩), (("tok", "alice"), ⟨100⟩)],
   [(("tok", "#escrow/p/c"), ⟨10⟩), (("tok", "alice"), ⟨100⟩)]⟩

theorem exceptMap_error {ε α β : Type} (f : α → β) (e : ε) :
    Except.map f (Except.error e : Except ε α) = Except.error e := rfl

theorem exceptMap_ok {ε α β : Type} (f : α → β) (a : α) :
    (Except.map f (Except.ok a) : Except ε β) = Except.ok (f a) := rfl

theorem assocLookup_insert_self {α β : Type} [DecidableEq α]
    (l : List (α × β)) (k : α) (v : β) :
    assocLookup (assocInsert l k v) k = some v := by
  induction l with
  | nil => simp [assocInsert, assocLookup]
  | cons hd tl ih =>
    obtain ⟨a, b⟩ := hd
    by_cases h : a = k
    · simp [assocInsert, assocLookup, h]
    · simp [assocInsert, assocLookup, h, ih]

/-- C4: for every key and every storage/write-log state, the fixed-size and
variable-length read host functions (the tx pair and the vp pre/post pairs)
have identical data semantics — the same aborts, the same gas, the same bytes
written to the guest result pointer, agreement on foundness — and differ only
in the status encoding: `1`/`0` for the fixed-size family, data byte length /
`-1` for the variable-length family.  Each of the six functions is exactly
the shared data-semantics function composed with its status encoding. -/
theorem read_conventions_agree_on_data :
    (∀ (env : TxEnv) (kp kl rp : Nat),
      tx_storage_read env kp kl rp
        = Except.map (fun p => (p.1, encFixed p.2)) (txReadData env kp kl rp)
      ∧ tx_storage_read_varlen env kp kl rp
        = Except.map (fun p => (p.1, encVarlen p.2)) (txReadData env kp kl rp))
    ∧ (∀ (env : VpEnv) (kp kl rp : Nat),
      (vp_storage_read_pre env kp kl rp
        = Except.map (fun p => (p.1, encFixed p.2)) (vpReadPreData env kp kl rp)
      ∧ vp_storage_read_pre_varlen env kp kl rp
        = Except.map (fun p => (p.1, encVarlen p.2)) (vpReadPreData env kp kl rp))
      ∧ (vp_storage_read_post env kp kl rp
        = Except.map (fun p => (p.1, encFixed p.2)) (vpReadPostData env kp kl rp)
      ∧ vp_storage_read_post_varlen env kp kl rp
        = Except.map (fun p => (p.1, encVarlen p.2)) (vpReadPostData env kp kl rp))) := by
  refine ⟨fun env kp kl rp => ⟨?_, ?_⟩, fun env kp kl rp => ⟨⟨?_, ?_⟩, ?_, ?_⟩⟩
  · unfold tx_storage_read txReadData
    repeat' split
    all_goals rfl
  · unfold tx_storage_read_varlen txReadData
    repeat' split
    all_goals rfl
  · unfold vp_storage_read_pre vpReadPreData
    repeat' split
    all_goals rfl
  · unfold vp_storage_read_pre_varlen vpReadPreData
    repeat' split
    all_goals rfl
  · unfold vp_storage_read_post vpReadPostData
    repeat' split
    all_goals rfl
  · unfold vp_storage_read_post_varlen vpReadPostData
    repeat' split
    all_goals rfl

/-- C1: the predicate-context pre-view reads (`vp_storage_read_pre` and its
varlen variant) depend only on committed storage and never on the current
transaction's write log — substituting an arbitrary write log leaves the
returned status, the written data, the gas and every other component of the
outcome unchanged — while the post-view read `vp_storage_read_post` consults
the write log first: whenever a staged modification is present for the key,
the outcome is `stagedReadOutcome` of that modification, a function that
never consults committed storage. -/
theorem vp_pre_post_dual_view_isolation :
    (∀ (env : VpEnv) (wl : WriteLog) (kp kl rp : Nat),
      vp_storage_read_pre { env with write_log := wl } kp kl rp
        = Except.map (fun p => ({ p.1 with write_log := wl }, p.2))
            (vp_storage_read_pre env kp kl rp)
      ∧ vp_storage_read_pre_varlen { env with write_log := wl } kp kl rp
        = Except.map (fun p => ({ p.1 with write_log := wl }, p.2))
            (vp_storage_read_pre_varlen env kp kl rp))
    ∧ (∀ (env : VpEnv) (kp kl rp : Nat) (s : String) (g : Nat) (k : Key)
        (m : StorageModification),
      env.memory.read_string kp kl = some (s, g) →
      Key.parse s = some k →
      (env.write_log.read k).1 = some m →
      vp_storage_read_post env kp kl rp
        = match vp_add_gas env g with
          | .error e => .error e
          | .ok env1 =>
            match vp_add_gas env1 (env1.write_log.read k).2 with
            | .error e => .error e
            | .ok env2 => stagedReadOutcome env2 m rp) := by
  refine ⟨fun env wl kp kl rp => ⟨?_, ?_⟩, ?_⟩
  · rcases hm : env.memory.read_string kp kl with _ | ⟨s, g⟩ <;>
      simp only [vp_storage_read_pre, hm, exceptMap_error, exceptMap_ok]
    rcases hg : env.gas_meter.add g with _ | m <;>
      simp only [vp_add_gas, hg, exceptMap_error, exceptMap_ok]
    rcases hk : Key.parse s with _ | k <;>
      simp only [hk, exceptMap_error, exceptMap_ok]
    rcases hg2 : m.add (Storage.read env.storage k).2 with _ | m2 <;>
      simp only [hg2, exceptMap_error, exceptMap_ok]
    rcases hv : (Storage.read env.storage k).1 with _ | v <;>
      simp only [hv, exceptMap_error, exceptMap_ok]
    rcases hw : env.memory.write_bytes rp v with _ | ⟨mem2, g3⟩ <;>
      simp only [hw, exceptMap_error, exceptMap_ok]
    rcases hg3 : m2.add g3 with _ | m3 <;>
      simp only [hg3, exceptMap_error, exceptMap_ok]
  · rcases hm : env.memory.read_string kp kl with _ | ⟨s, g⟩ <;>
      simp only [vp_storage_read_pre_varlen, hm, exceptMap_error, exceptMap_ok]
    rcases hg : env.gas_meter.add g with _ | m <;>
      simp only [vp_add_gas, hg, exceptMap_error, exceptMap_ok]
    rcases hk : Key.parse s with _ | k <;>
      simp only [hk, exceptMap_error, exceptMap_ok]
    rcases hg2 : m.add (Storage.read env.storage k).2 with _ | m2 <;>
      simp only [hg2, exceptMap_error, exceptMap_ok]
    rcases hv : (Storage.read env.storage k).1 with _ | v <;>
      simp only [hv, exceptMap_error, exceptMap_ok]
    rcases hw : env.memory.write_bytes rp v with _ | ⟨mem2, g3⟩ <;>
      simp only [hw, exceptMap_error, exceptMap_ok]
    rcases hg3 : m2.add g3 with _ | m3 <;>
      simp only [hg3, exceptMap_error, exceptMap_ok]
  · intro env kp kl rp s g k m hm hk hl
    simp only [WriteLog.read] at hl
    simp only [vp_storage_read_post, hm]
    rcases hg : env.gas_meter.add g with _ | m1 <;>
      simp only [vp_add_gas, hg]
    simp only [hk, WriteLog.read, hl]
    rcases hg2 : m1.add (Key.size k) with _ | m2 <;>
      simp only [hg2]
    cases m <;> simp only [stagedReadOutcome, vp_add_gas]

/-- Witness for C1: a concrete predicate environment whose write log stages
`Write [7]` for the key `a`; the post-view read reflects the staged value. -/
theorem vp_pre_post_dual_view_isolation_witness :
    (AnomaMemory.read_string ⟨[97, 0]⟩ 0 1 = some ("a", 1)
      ∧ Key.parse "a" = some ⟨["a"]⟩
      ∧ (WriteLog.read ⟨[(⟨["a"]⟩, .write [7])]⟩ ⟨["a"]⟩).1 = some (.write [7]))
    ∧ vp_storage_read_post
        ⟨"a", ⟨[], []⟩, ⟨[(⟨["a"]⟩, .write [7])]⟩, ⟨[]⟩, ⟨0, 100⟩, ⟨[97, 0]⟩⟩ 0 1 1
      = match vp_add_gas
            ⟨"a", ⟨[], []⟩, ⟨[(⟨["a"]⟩, .write [7])]⟩, ⟨[]⟩, ⟨0, 100⟩, ⟨[97, 0]⟩⟩ 1 with
        | .error e => .error e
        | .ok env1 =>
          match vp_add_gas env1 (env1.write_log.read ⟨["a"]⟩).2 with
          | .error e => .error e
          | .ok env2 => stagedReadOutcome env2 (.write [7]) 1 :=
  ⟨⟨by decide, by decide, by decide⟩,
    vp_pre_post_dual_view_isolation.2
      ⟨"a", ⟨[], []⟩, ⟨[(⟨["a"]⟩, .write [7])]⟩, ⟨[]⟩, ⟨0, 100⟩, ⟨[97, 0]⟩⟩
      0 1 1 "a" 1 ⟨["a"]⟩ (.write [7]) (by decide) (by decide) (by decide)⟩

/-- C2: after `tx_storage_write` has staged `Write(v)` for key `k`, a
subsequent `tx_storage_read` of `k` hits the write-log `Write` branch: the
staged entry is exactly `Write v`, the read's outcome is independent of
committed storage (substituting an arbitrary `Storage` commutes with the
read), and the read returns `1` writing exactly the bytes `v` to the guest
result pointer (up to the gas and memory bookkeeping visible in the
outcome). -/
theorem tx_write_then_read_returns_staged_value
    (env : TxEnv) (kp kl vptr vl rp : Nat) (s : String) (g1 : Nat) (k : Key)
    (v : Val) (g2 : Nat) (env' : TxEnv)
    (hs : env.memory.read_string kp kl = some (s, g1))
    (hk : Key.parse s = some k)
    (hv : env.memory.read_bytes vptr vl = some (v, g2))
    (hw : tx_storage_write env kp kl vptr vl = .ok env') :
    (env'.write_log.read k).1 = some (.write v)
    ∧ env'.memory = env.memory
    ∧ env'.storage = env.storage
    ∧ (∀ st : Storage,
        tx_storage_read { env' with storage := st } kp kl rp
          = Except.map (fun p => ({ p.1 with storage := st }, p.2))
              (tx_storage_read env' kp kl rp))
    ∧ tx_storage_read env' kp kl rp
        = match tx_add_gas env' g1 with
          | .error e => .error e
          | .ok envA =>
            match tx_add_gas envA (env'.write_log.read k).2 with
            | .error e => .error e
            | .ok envB =>
              match envB.memory.write_bytes rp v with
              | none => .error .memoryFault
              | some (mem2, g3) =>
                match tx_add_gas { envB with memory := mem2 } g3 with
                | .error e => .error e
                | .ok envC => .ok (envC, 1) := by
  simp only [tx_storage_write, hs] at hw
  rcases hg1 : env.gas_meter.add g1 with e1 | m1 <;>
    simp only [tx_add_gas, hg1, reduceCtorEq] at hw
  simp only [hv] at hw
  rcases hg2 : m1.add g2 with e2 | m2 <;>
    simp only [tx_add_gas, hg2, reduceCtorEq] at hw
  simp only [hk, WriteLog.write] at hw
  rcases hg3 : m2.add (k.size + v.length) with e3 | m3 <;>
    simp only [hg3, reduceCtorEq] at hw
  injection hw with hw'
  subst hw'
  refine ⟨?_, rfl, rfl, ?_, ?_⟩
  · simp [WriteLog.read, assocLookup_insert_self]
  · intro st
    rcases hgA : m3.add g1 with _ | mA <;>
      simp only [tx_storage_read, hs, tx_add_gas, hgA, exceptMap_error,
        exceptMap_ok]
    simp only [hk, WriteLog.read, assocLookup_insert_self]
    rcases hgB : mA.add (Key.size k) with _ | mB <;>
      simp only [hgB, exceptMap_error, exceptMap_ok]
    rcases hwb : env.memory.write_bytes rp v with _ | ⟨mem2, g3⟩ <;>
      simp only [hwb, exceptMap_error, exceptMap_ok]
    rcases hgC : mB.add g3 with _ | mC <;>
      simp only [hgC, exceptMap_error, exceptMap_ok]
  · rcases hgA : m3.add g1 with _ | mA <;>
      simp only [tx_storage_read, hs, tx_add_gas, hgA]
    simp only [hk, WriteLog.read, assocLookup_insert_self]

theorem iterShadowAdvance_spec (wl : WriteLog) (rp : Nat) :
    ∀ (entries : List IterEntry) (gm : GasMeter) (mem : AnomaMemory)
      (gm' : GasMeter) (mem' : AnomaMemory) (rest' : List IterEntry) (ret : Nat),
      iterShadowAdvance wl gm mem rp entries = .ok (gm', mem', rest', ret) →
      (match firstVisible wl entries with
       | none => ret = 0 ∧ mem' = mem ∧ rest' = []
       | some ((key, value), rest) =>
           ret = 1 ∧ rest' = rest
           ∧ ∃ g, mem.write_bytes rp (keyValEncode key value) = some (mem', g)) := by
  intro entries
  induction entries with
  | nil =>
    intro gm mem gm' mem' rest' ret h
    simp only [iterShadowAdvance, Except.ok.injEq, Prod.mk.injEq] at h
    obtain ⟨rfl, rfl, rfl, rfl⟩ := h
    simp [firstVisible]
  | cons e rest ih =>
    obtain ⟨key, val, ig⟩ := e
    intro gm mem gm' mem' rest' ret h
    simp only [iterShadowAdvance] at h
    rcases hk : Key.parse key with _ | k <;>
      simp only [hk, reduceCtorEq] at h
    simp only [WriteLog.read] at h
    rcases hga : gm.add (ig + k.size) with _ | gm1 <;>
      simp only [hga, reduceCtorEq] at h
    rcases hlv : assocLookup wl.log k with _ | m
    · simp only [hlv] at h
      rcases hwb : mem.write_bytes rp (keyValEncode key val) with _ | ⟨mem2, g⟩ <;>
        simp only [hwb, reduceCtorEq] at h
      rcases hgb : gm1.add g with _ | gm2 <;>
        simp only [hgb, reduceCtorEq, Except.ok.injEq, Prod.mk.injEq] at h
      obtain ⟨rfl, rfl, rfl, rfl⟩ := h
      simp only [firstVisible, hk, WriteLog.read, hlv]
      exact ⟨trivial, trivial, g, hwb⟩
    · cases m with
      | write value =>
        simp only [hlv] at h
        rcases hwb : mem.write_bytes rp (keyValEncode key value) with _ | ⟨mem2, g⟩ <;>
          simp only [hwb, reduceCtorEq] at h
        rcases hgb : gm1.add g with _ | gm2 <;>
          simp only [hgb, reduceCtorEq, Except.ok.injEq, Prod.mk.injEq] at h
        obtain ⟨rfl, rfl, rfl, rfl⟩ := h
        simp only [firstVisible, hk, WriteLog.read, hlv]
        exact ⟨trivial, trivial, g, hwb⟩
      | delete =>
        simp only [hlv] at h
        have hres := ih gm1 mem gm' mem' rest' ret h
        simpa only [firstVisible, hk, WriteLog.read, hlv] using hres
      | initAccount vp parent =>
        simp only [hlv] at h
        have hres := ih gm1 mem gm' mem' rest' ret h
        simpa only [firstVisible, hk, WriteLog.read, hlv] using hres

/-- C3: a write-log-shadowed prefix-iterator advance (transaction view and
predicate post view alike) returns the first entry of the underlying
committed scan that is visible under the write log — a staged `Write`
substitutes its value, a staged `Delete` or `InitAccount` entry is skipped,
an absent log record keeps the committed value — looping internally until a
visible entry is produced (status 1, its encoding written to the result
pointer, the scan positioned after it) or the scan is exhausted (status 0);
on the spec's scenario (committed `{k1: a, k2: b, k3: c}`, staged
`write(k1, x)` and `delete(k2)`) iteration yields exactly `k1 ↦ x` then
`k3 ↦ c` and never `k2`. -/
theorem iter_advance_shadow_semantics :
    (∀ (env : TxEnv) (id rp : Nat) (entries : List IterEntry) (env' : TxEnv)
        (ret : Nat),
      assocLookup env.iterators.iterators id = some entries →
      tx_storage_iter_next env id rp = .ok (env', ret) →
      match firstVisible env.write_log entries with
      | none => ret = 0 ∧ env'.memory = env.memory
          ∧ assocLookup env'.iterators.iterators id = some []
      | some ((key, value), rest) =>
          ret = 1
          ∧ assocLookup env'.iterators.iterators id = some rest
          ∧ ∃ g, env.memory.write_bytes rp (keyValEncode key value)
              = some (env'.memory, g))
    ∧ (∀ (env : VpEnv) (id rp : Nat) (entries : List IterEntry) (env' : VpEnv)
        (ret : Nat),
      assocLookup env.iterators.iterators id = some entries →
      vp_storage_iter_post_next env id rp = .ok (env', ret) →
      match firstVisible env.write_log entries with
      | none => ret = 0 ∧ env'.memory = env.memory
          ∧ assocLookup env'.iterators.iterators id = some []
      | some ((key, value), rest) =>
          ret = 1
          ∧ assocLookup env'.iterators.iterators id = some rest
          ∧ ∃ g, env.memory.write_bytes rp (keyValEncode key value)
              = some (env'.memory, g))
    ∧ (∃ env1 env2 env3 : TxEnv,
        tx_storage_iter_next iterScenarioEnv 7 0 = .ok (env1, 1)
        ∧ env1.memory.bytes.take 5 = keyValEncode "k1" [120]
        ∧ tx_storage_iter_next env1 7 0 = .ok (env2, 1)
        ∧ env2.memory.bytes.take 5 = keyValEncode "k3" [99]
        ∧ tx_storage_iter_next env2 7 0 = .ok (env3, 0)) := by
  refine ⟨?_, ?_, ?_⟩
  · intro env id rp entries env' ret hlook hrun
    simp only [tx_storage_iter_next, hlook] at hrun
    rcases hadv : iterShadowAdvance env.write_log env.gas_meter env.memory rp
        entries with e | ⟨gm, mem, rest2, retv⟩ <;>
      simp only [hadv, reduceCtorEq, Except.ok.injEq, Prod.mk.injEq] at hrun
    obtain ⟨henv, rfl⟩ := hrun
    subst henv
    have hspec := iterShadowAdvance_spec env.write_log rp entries
      env.gas_meter env.memory gm mem rest2 retv hadv
    rcases hfv : firstVisible env.write_log entries with _ | ⟨⟨key, value⟩, rest⟩ <;>
      simp only [hfv] at hspec ⊢
    · obtain ⟨h1, h2, h3⟩ := hspec
      subst h3
      exact ⟨h1, h2, assocLookup_insert_self _ _ _⟩
    · obtain ⟨h1, h2, g, hg⟩ := hspec
      subst h2
      exact ⟨h1, assocLookup_insert_self _ _ _, g, hg⟩
  · intro env id rp entries env' ret hlook hrun
    simp only [vp_storage_iter_post_next, hlook] at hrun
    rcases hadv : iterShadowAdvance env.write_log env.gas_meter env.memory rp
        entries with e | ⟨gm, mem, rest2, retv⟩ <;>
      simp only [hadv, reduceCtorEq, Except.ok.injEq, Prod.mk.injEq] at hrun
    obtain ⟨henv, rfl⟩ := hrun
    subst henv
    have hspec := iterShadowAdvance_spec env.write_log rp entries
      env.gas_meter env.memory gm mem rest2 retv hadv
    rcases hfv : firstVisible env.write_log entries with _ | ⟨⟨key, value⟩, rest⟩ <;>
      simp only [hfv] at hspec ⊢
    · obtain ⟨h1, h2, h3⟩ := hspec
      subst h3
      exact ⟨h1, h2, assocLookup_insert_self _ _ _⟩
    · obtain ⟨h1, h2, g, hg⟩ := hspec
      subst h2
      exact ⟨h1, assocLookup_insert_self _ _ _, g, hg⟩
  · exact ⟨_, _, _, rfl, rfl, rfl, rfl, rfl⟩

/-- Witness for C3: applying the transaction-view characterization to the
first advance of the concrete scenario. -/
theorem iter_advance_shadow_semantics_witness :
    assocLookup iterScenarioEnv.iterators.iterators 7 = some iterScenarioEntries
    ∧ ∃ env' : TxEnv,
        tx_storage_iter_next iterScenarioEnv 7 0 = .ok (env', 1)
        ∧ match firstVisible iterScenarioEnv.write_log iterScenarioEntries with
          | none => (1 : Nat) = 0 ∧ env'.memory = iterScenarioEnv.memory
              ∧ assocLookup env'.iterators.iterators 7 = some []
          | some ((key, value), rest) =>
              (1 : Nat) = 1
              ∧ assocLookup env'.iterators.iterators 7 = some rest
              ∧ ∃ g, iterScenarioEnv.memory.write_bytes 0 (keyValEncode key value)
                  = some (env'.memory, g) :=
  ⟨by decide,
    ⟨_, rfl,
      iter_advance_shadow_semantics.1 iterScenarioEnv 7 0 iterScenarioEntries
        _ 1 (by decide) rfl⟩⟩

/-- Witness for C2: staging `Write [9]` for key `a` over a committed storage
that holds `[5]` at the same key; the subsequent read finds the staged `[9]`. -/
theorem tx_write_then_read_returns_staged_value_witness :
    (AnomaMemory.read_string ⟨[97, 9, 0]⟩ 0 1 = some ("a", 1)
      ∧ Key.parse "a" = some ⟨["a"]⟩
      ∧ AnomaMemory.read_bytes ⟨[97, 9, 0]⟩ 1 1 = some ([9], 1))
    ∧ ∃ env' : TxEnv,
        tx_storage_write
          ⟨⟨[(⟨["a"]⟩, [5])], []⟩, ⟨[]⟩, ⟨[]⟩, [], ⟨0, 100⟩, ⟨[97, 9, 0]⟩⟩
          0 1 1 1 = .ok env'
        ∧ (env'.write_log.read ⟨["a"]⟩).1 = some (.write [9]) :=
  ⟨⟨by decide, by decide, by decide⟩,
    ⟨_, rfl,
      (tx_write_then_read_returns_staged_value
        ⟨⟨[(⟨["a"]⟩, [5])], []⟩, ⟨[]⟩, ⟨[]⟩, [], ⟨0, 100⟩, ⟨[97, 9, 0]⟩⟩
        0 1 1 1 2 "a" 1 ⟨["a"]⟩ [9] 1 _
        (by decide) (by decide) (by decide) rfl).1⟩⟩

/-- C5: unreadable or out-of-bounds guest memory, an unparsable key string and
gas exhaustion each make the host function abort the guest invocation
(`Except.error`, the model of a panic/trap) — shown for the transaction read
and the predicate pre read, whose cited sources also carry the shared
`tx_add_gas`/`vp_add_gas` logic — and an abort is never the recoverable
status of a completed call: an aborted invocation returns no `.ok` result at
all, so no further guest work can proceed on it. -/
theorem host_faults_abort_invocation :
    (∀ (env : TxEnv) (kp kl rp : Nat),
      env.memory.read_string kp kl = none →
      tx_storage_read env kp kl rp = .error .memoryFault)
    ∧ (∀ (env : TxEnv) (kp kl rp : Nat) (s : String) (g : Nat) (env1 : TxEnv),
      env.memory.read_string kp kl = some (s, g) →
      tx_add_gas env g = .ok env1 →
      Key.parse s = none →
      tx_storage_read env kp kl rp = .error .parseFault)
    ∧ (∀ (env : TxEnv) (kp kl rp : Nat) (s : String) (g : Nat),
      env.memory.read_string kp kl = some (s, g) →
      env.gas_meter.limit < env.gas_meter.used + g →
      tx_storage_read env kp kl rp = .error .gasExceeded)
    ∧ (∀ (env : VpEnv) (kp kl rp : Nat),
      env.memory.read_string kp kl = none →
      vp_storage_read_pre env kp kl rp = .error .memoryFault)
    ∧ (∀ (env : VpEnv) (kp kl rp : Nat) (s : String) (g : Nat) (env1 : VpEnv),
      env.memory.read_string kp kl = some (s, g) →
      vp_add_gas env g = .ok env1 →
      Key.parse s = none →
      vp_storage_read_pre env kp kl rp = .error .parseFault)
    ∧ (∀ (env : VpEnv) (kp kl rp : Nat) (s : String) (g : Nat),
      env.memory.read_string kp kl = some (s, g) →
      env.gas_meter.limit < env.gas_meter.used + g →
      vp_storage_read_pre env kp kl rp = .error .gasExceeded)
    ∧ (∀ (env : TxEnv) (kp kl rp : Nat) (e : HostAbort),
      tx_storage_read env kp kl rp = .error e →
      ∀ (env' : TxEnv) (r : Nat), tx_storage_read env kp kl rp ≠ .ok (env', r)) := by
  refine ⟨?_, ?_, ?_, ?_, ?_, ?_, ?_⟩
  · intro env kp kl rp h
    simp [tx_storage_read, h]
  · intro env kp kl rp s g env1 hs hg hk
    simp [tx_storage_read, hs, hg, hk]
  · intro env kp kl rp s g hs hlim
    simp [tx_storage_read, hs, tx_add_gas, GasMeter.add, if_pos hlim]
  · intro env kp kl rp h
    simp [vp_storage_read_pre, h]
  · intro env kp kl rp s g env1 hs hg hk
    simp [vp_storage_read_pre, hs, hg, hk]
  · intro env kp kl rp s g hs hlim
    simp [vp_storage_read_pre, hs, vp_add_gas, GasMeter.add, if_pos hlim]
  · intro env kp kl rp e h env' r
    rw [h]
    simp

/-- Witness for C5: a read on empty memory aborts with a memory fault; the
key string `/` (an empty segment) aborts with a parse fault; an exhausted
meter aborts with a gas fault. -/
theorem host_faults_abort_invocation_witness :
    ((⟨[]⟩ : AnomaMemory).read_string 0 1 = none
      ∧ tx_storage_read ⟨⟨[], []⟩, ⟨[]⟩, ⟨[]⟩, [], ⟨0, 100⟩, ⟨[]⟩⟩ 0 1 0
          = .error .memoryFault)
    ∧ ((⟨[47]⟩ : AnomaMemory).read_string 0 1 = some ("/", 1)
      ∧ Key.parse "/" = none
      ∧ tx_storage_read ⟨⟨[], []⟩, ⟨[]⟩, ⟨[]⟩, [], ⟨0, 100⟩, ⟨[47]⟩⟩ 0 1 0
          = .error .parseFault)
    ∧ ((⟨0, 0⟩ : GasMeter).limit < (0 : Nat) + 1
      ∧ tx_storage_read ⟨⟨[], []⟩, ⟨[]⟩, ⟨[]⟩, [], ⟨0, 0⟩, ⟨[97]⟩⟩ 0 1 0
          = .error .gasExceeded) :=
  ⟨⟨by decide,
      host_faults_abort_invocation.1
        ⟨⟨[], []⟩, ⟨[]⟩, ⟨[]⟩, [], ⟨0, 100⟩, ⟨[]⟩⟩ 0 1 0 (by decide)⟩,
    ⟨by decide, by decide,
      (host_faults_abort_invocation.2.1)
        ⟨⟨[], []⟩, ⟨[]⟩, ⟨[]⟩, [], ⟨0, 100⟩, ⟨[47]⟩⟩ 0 1 0 "/" 1 _
        (by decide) rfl (by decide)⟩,
    ⟨by decide,
      (host_faults_abort_invocation.2.2.1)
        ⟨⟨[], []⟩, ⟨[]⟩, ⟨[]⟩, [], ⟨0, 0⟩, ⟨[97]⟩⟩ 0 1 0 "a" 1
        (by decide) (by decide)⟩⟩

theorem gasAdd_ok (u l g : Nat) (h : u + g ≤ l) :
    GasMeter.add ⟨u, l⟩ g = .ok ⟨u + g, l⟩ := by
  simp only [GasMeter.add]
  rw [if_neg (by omega)]

theorem mem_insertAddr_self (a : Address) (l : List Address) :
    a ∈ insertAddr a l := by
  by_cases h : a ∈ l <;> simp [insertAddr, h]

/-- C6: `tx_init_account` checks the authorizing parent address against
committed storage only: when the parent is absent from committed storage the
invocation aborts for every write-log content — in particular when the parent
exists only as a staged write of the same transaction — and when the parent
is committed, the new account's predicate code is staged in the write log
tagged with that parent. -/
theorem init_account_parent_check_committed_only
    (env : TxEnv) (ap al cp cl : Nat) (s : String) (g1 : Nat) (code : Val)
    (g2 : Nat) (addr : RawAddress)
    (hs : env.memory.read_string ap al = some (s, g1))
    (hc : env.memory.read_bytes cp cl = some (code, g2))
    (ha : RawAddress.parse s = some addr)
    (hgas : env.gas_meter.used + g1 + g2 + 1 + code.length
        ≤ env.gas_meter.limit) :
    (addr.parent.hash ∈ env.storage.accounts →
      ∃ env', tx_init_account env ap al cp cl = .ok env'
        ∧ (env'.write_log.read (vpKey addr.hash)).1
            = some (.initAccount code addr.parent.hash))
    ∧ (addr.parent.hash ∉ env.storage.accounts →
      ∀ wl : WriteLog,
        tx_init_account { env with write_log := wl } ap al cp cl
          = .error .unreachable) := by
  have e1 := gasAdd_ok env.gas_meter.used env.gas_meter.limit g1 (by omega)
  have e2 := gasAdd_ok (env.gas_meter.used + g1) env.gas_meter.limit g2
    (by omega)
  have e3 := gasAdd_ok (env.gas_meter.used + g1 + g2) env.gas_meter.limit 1
    (by omega)
  have e4 := gasAdd_ok (env.gas_meter.used + g1 + g2 + 1) env.gas_meter.limit
    code.length (by omega)
  constructor
  · intro hmem
    simp only [tx_init_account, hs, hc, ha, tx_add_gas, Storage.addrExists,
      e1, e2, e3, e4, WriteLog.init_account, decide_eq_true hmem, if_true]
    exact ⟨_, rfl, by simp [WriteLog.read, assocLookup_insert_self]⟩
  · intro hmem wl
    simp only [tx_init_account, hs, hc, ha, tx_add_gas, Storage.addrExists,
      e1, e2, e3, decide_eq_false hmem, Bool.false_eq_true, if_false]

/-- Witness for C6: initializing `b.a` whose parent `a` is committed; the
predicate code `[1]` is staged tagged with parent `a`. -/
theorem init_account_parent_check_committed_only_witness :
    (AnomaMemory.read_string ⟨[98, 46, 97, 1]⟩ 0 3 = some ("b.a", 3)
      ∧ AnomaMemory.read_bytes ⟨[98, 46, 97, 1]⟩ 3 1 = some ([1], 1)
      ∧ RawAddress.parse "b.a" = some ⟨["b", "a"]⟩
      ∧ (0 : Nat) + 3 + 1 + 1 + 1 ≤ 100
      ∧ (RawAddress.parent ⟨["b", "a"]⟩).hash ∈ ["a"])
    ∧ ∃ env', tx_init_account
          ⟨⟨[], ["a"]⟩, ⟨[]⟩, ⟨[]⟩, [], ⟨0, 100⟩, ⟨[98, 46, 97, 1]⟩⟩ 0 3 3 1
        = .ok env'
        ∧ (env'.write_log.read (vpKey (RawAddress.hash ⟨["b", "a"]⟩))).1
            = some (.initAccount [1] (RawAddress.parent ⟨["b", "a"]⟩).hash) :=
  ⟨⟨by decide, by decide, by decide, by decide, by decide⟩,
    (init_account_parent_check_committed_only
      ⟨⟨[], ["a"]⟩, ⟨[]⟩, ⟨[]⟩, [], ⟨0, 100⟩, ⟨[98, 46, 97, 1]⟩⟩ 0 3 3 1
      "b.a" 3 [1] 1 ⟨["b", "a"]⟩
      (by decide) (by decide) (by decide) (by decide)).1 (by decide)⟩

/-- C10: every successful `tx_init_account` call automatically inserts the
authorizing parent address into the transaction's verifier set — the
resulting verifier set is exactly the old set with the parent inserted, so
the parent's validity predicate must subsequently run — in addition to
staging the `InitAccount` modification, without any `tx_insert_verifier`
call. -/
theorem init_account_inserts_parent_verifier
    (env : TxEnv) (ap al cp cl : Nat) (s : String) (g1 : Nat) (code : Val)
    (g2 : Nat) (addr : RawAddress) (env' : TxEnv)
    (hs : env.memory.read_string ap al = some (s, g1))
    (hc : env.memory.read_bytes cp cl = some (code, g2))
    (ha : RawAddress.parse s = some addr)
    (hrun : tx_init_account env ap al cp cl = .ok env') :
    env'.verifiers = insertAddr addr.parent.hash env.verifiers
    ∧ addr.parent.hash ∈ env'.verifiers
    ∧ (env'.write_log.read (vpKey addr.hash)).1
        = some (.initAccount code addr.parent.hash) := by
  simp only [tx_init_account, hs] at hrun
  rcases hg1 : env.gas_meter.add g1 with _ | m1 <;>
    simp only [tx_add_gas, hg1, reduceCtorEq] at hrun
  simp only [hc] at hrun
  rcases hg2 : m1.add g2 with _ | m2 <;>
    simp only [hg2, reduceCtorEq] at hrun
  simp only [ha, Storage.addrExists] at hrun
  rcases hg3 : m2.add 1 with _ | m3 <;>
    simp only [hg3, reduceCtorEq] at hrun
  cases hex : decide (addr.parent.hash ∈ env.storage.accounts) <;>
    simp only [hex, Bool.false_eq_true, if_false, if_true, reduceCtorEq,
      WriteLog.init_account] at hrun
  rcases hg4 : m3.add code.length with _ | m4 <;>
    simp only [hg4, reduceCtorEq, Except.ok.injEq] at hrun
  subst hrun
  exact ⟨rfl, mem_insertAddr_self _ _,
    by simp [WriteLog.read, assocLookup_insert_self]⟩

/-- Witness for C10: the successful `b.a` initialization puts parent `a`
into the verifier set although `tx_insert_verifier` was never called. -/
theorem init_account_inserts_parent_verifier_witness :
    ∃ env', tx_init_account
        ⟨⟨[], ["a"]⟩, ⟨[]⟩, ⟨[]⟩, [], ⟨0, 100⟩, ⟨[98, 46, 97, 1]⟩⟩ 0 3 3 1
      = .ok env'
      ∧ (RawAddress.parent ⟨["b", "a"]⟩).hash ∈ env'.verifiers :=
  ⟨_, rfl,
    (init_account_inserts_parent_verifier
      ⟨⟨[], ["a"]⟩, ⟨[]⟩, ⟨[]⟩, [], ⟨0, 100⟩, ⟨[98, 46, 97, 1]⟩⟩ 0 3 3 1
      "b.a" 3 [1] 1 ⟨["b", "a"]⟩ _
      (by decide) (by decide) (by decide) rfl).2.1⟩

theorem shim_run_append (l1 l2 : List Req) :
    ∀ shim : AbcippShim, shim.run (l1 ++ l2)
      = match shim.run l1 with
        | some s => s.run l2
        | none => none := by
  induction l1 with
  | nil => intro shim; rfl
  | cons r rs ih =>
    intro shim
    simp only [List.cons_append, AbcippShim.run]
    cases h : shim.call r with
    | none => rfl
    | some p =>
      obtain ⟨s', resp⟩ := p
      exact ih s'

theorem shim_run_deliver (txs : List Val) :
    ∀ shim : AbcippShim, shim.run (txs.map Req.deliverTx)
      = some { shim with block_txs := (shim.block_txs
          ++ txs.map (fun t => ⟨t, shim.service.process_result t⟩)) } := by
  induction txs with
  | nil =>
    intro shim
    show some shim = _
    rw [List.map_nil, List.append_nil]
  | cons t ts ih =>
    intro shim
    simp only [List.map_cons, AbcippShim.run, AbcippShim.call]
    rw [ih]
    simp [List.append_assoc]

theorem shim_run_block (shim : AbcippShim) (b : BeginBlock) (txs : List Val)
    (h : Int) (hh : 0 ≤ h) (hbuf : shim.block_txs = []) :
    shim.run (Req.beginBlock b :: (txs.map Req.deliverTx ++ [Req.endBlock h]))
      = some ⟨⟨shim.service.process_result,
               shim.service.queue_reset
                 || (txs.map (fun t =>
                      (⟨t, shim.service.process_result t⟩ : ProcessedTx))).any
                      (fun t => 3 < t.result.code),
               shim.service.finalized
                 ++ [⟨b.hash, b.header, b.byzantine_validators,
                      txs.map (fun t => ⟨t, shim.service.process_result t⟩),
                      (txs.map (fun t =>
                        (⟨t, shim.service.process_result t⟩ : ProcessedTx))).any
                        (fun t => 3 < t.result.code)⟩]⟩,
              none, []⟩ := by
  simp only [AbcippShim.run, AbcippShim.call]
  rw [shim_run_append, shim_run_deliver]
  simp only [hbuf, List.nil_append, AbcippShim.run, AbcippShim.call]
  rw [if_neg (by omega)]
  cases hooo : (txs.map (fun t =>
      (⟨t, shim.service.process_result t⟩ : ProcessedTx))).any
      (fun t => 3 < t.result.code) <;>
    simp only [hooo, Shell.reset_queue, Bool.false_eq_true, if_false, if_true,
      Bool.or_false, Bool.or_true, AbcippShim.run]

/-- C7: the protocol adapter is behaviorally transparent to the shell.  A
`DeliverTx` call only buffers the transaction paired with the shell's
`ProcessProposal` result (answering an information-free default response),
and over a whole block the adapter's entire effect is one `FinalizeBlock`
call whose `txs` are exactly the buffered results in order and unchanged,
whose other fields are the saved `BeginBlock` data and the reject flag
derived from those same buffered results, after which the buffer is empty
and the saved request cleared — no other state is touched and no decision is
taken beyond this translation. -/
theorem abcipp_shim_transparent_buffering :
    (∀ (shim : AbcippShim) (tx : Val),
      shim.call (Req.deliverTx tx)
        = some ({ shim with block_txs := (shim.block_txs
            ++ [⟨tx, shim.service.process_result tx⟩]) }, .deliverTx))
    ∧ (∀ (shim : AbcippShim) (b : BeginBlock) (txs : List Val) (h : Int),
      0 ≤ h → shim.block_txs = [] →
      shim.run (Req.beginBlock b :: (txs.map Req.deliverTx ++ [Req.endBlock h]))
        = some ⟨⟨shim.service.process_result,
                 shim.service.queue_reset
                   || (txs.map (fun t =>
                        (⟨t, shim.service.process_result t⟩ : ProcessedTx))).any
                        (fun t => 3 < t.result.code),
                 shim.service.finalized
                   ++ [⟨b.hash, b.header, b.byzantine_validators,
                        txs.map (fun t => ⟨t, shim.service.process_result t⟩),
                        (txs.map (fun t =>
                          (⟨t, shim.service.process_result t⟩ : ProcessedTx))).any
                          (fun t => 3 < t.result.code)⟩]⟩,
                none, []⟩) :=
  ⟨fun _ _ => rfl, fun shim b txs h hh hbuf => shim_run_block shim b txs h hh hbuf⟩

/-- Witness for C7: a block with one transaction processed with code 0 is
flushed unchanged as a single finalize request, with no queue reset. -/
theorem abcipp_shim_transparent_buffering_witness :
    (0 : Int) ≤ 5
    ∧ AbcippShim.run ⟨⟨fun _ => ⟨0⟩, false, []⟩, none, []⟩
        (Req.beginBlock ⟨[1], [2], []⟩
          :: ([[9]].map Req.deliverTx ++ [Req.endBlock 5]))
      = some ⟨⟨fun _ => ⟨0⟩, false, [⟨[1], [2], [], [⟨[9], ⟨0⟩⟩], false⟩]⟩,
              none, []⟩ :=
  ⟨by decide,
    abcipp_shim_transparent_buffering.2 ⟨⟨fun _ => ⟨0⟩, false, []⟩, none, []⟩
      ⟨[1], [2], []⟩ [[9]] 5 (by decide) rfl⟩

/-- C8: when any processed transaction of a block signals the wrapped-tx
ordering violation (result code above 3), the adapter's single finalize
request carries `reject_all_decrypted = true` for the block's entire
transaction list — all buffered results are rejected as one unit, never a
per-transaction subset — and the shell's decryption queue is reset for retry;
when no result signals the violation, the flag is false and the queue flag
is untouched. -/
theorem out_of_order_block_rejected_as_unit
    (shim : AbcippShim) (b : BeginBlock) (txs : List Val) (h : Int)
    (hh : 0 ≤ h) (hbuf : shim.block_txs = []) :
    ((txs.map (fun t => (⟨t, shim.service.process_result t⟩ : ProcessedTx))).any
        (fun t => 3 < t.result.code) = true →
      ∃ shim', shim.run
          (Req.beginBlock b :: (txs.map Req.deliverTx ++ [Req.endBlock h]))
          = some shim'
        ∧ shim'.service.queue_reset = true
        ∧ shim'.service.finalized = shim.service.finalized
            ++ [⟨b.hash, b.header, b.byzantine_validators,
                 txs.map (fun t => ⟨t, shim.service.process_result t⟩), true⟩]
        ∧ shim'.block_txs = [])
    ∧ ((txs.map (fun t => (⟨t, shim.service.process_result t⟩ : ProcessedTx))).any
        (fun t => 3 < t.result.code) = false →
      ∃ shim', shim.run
          (Req.beginBlock b :: (txs.map Req.deliverTx ++ [Req.endBlock h]))
          = some shim'
        ∧ shim'.service.queue_reset = shim.service.queue_reset
        ∧ shim'.service.finalized = shim.service.finalized
            ++ [⟨b.hash, b.header, b.byzantine_validators,
                 txs.map (fun t => ⟨t, shim.service.process_result t⟩), false⟩]) := by
  constructor
  · intro hbad
    refine ⟨_, shim_run_block shim b txs h hh hbuf, ?_, ?_, rfl⟩
    · simp [hbad]
    · rw [hbad]
  · intro hgood
    refine ⟨_, shim_run_block shim b txs h hh hbuf, ?_, ?_⟩
    · simp [hgood]
    · rw [hgood]

/-- Witness for C8: one transaction processed with code 7 (above 3) makes
the finalize request reject the whole block and resets the queue. -/
theorem out_of_order_block_rejected_as_unit_witness :
    ([[9]].map (fun t =>
        (⟨t, (⟨fun _ => ⟨7⟩, false, []⟩ : Shell).process_result t⟩
          : ProcessedTx))).any (fun t => 3 < t.result.code) = true
    ∧ ∃ shim', AbcippShim.run ⟨⟨fun _ => ⟨7⟩, false, []⟩, none, []⟩
          (Req.beginBlock ⟨[1], [2], []⟩
            :: ([[9]].map Req.deliverTx ++ [Req.endBlock 5]))
        = some shim'
      ∧ shim'.service.queue_reset = true
      ∧ shim'.service.finalized
          = [] ++ [⟨[1], [2], [], [⟨[9], ⟨7⟩⟩], true⟩]
      ∧ shim'.block_txs = [] :=
  ⟨rfl,
    (out_of_order_block_rejected_as_unit ⟨⟨fun _ => ⟨7⟩, false, []⟩, none, []⟩
      ⟨[1], [2], []⟩ [[9]] 5 (by decide) rfl).1 rfl⟩

/-- Counterexample to C9 as stated: the token validity predicate accepts a
transfer claiming 10 `tok` from `alice` although `alice`'s pre/post balance
delta is 0, not −10 — acceptance does not require the sender-side delta to
match, because `validate_sending_token` examines only the escrow/burn target
key. -/
theorem token_vp_counterexample_sender_unchecked :
    validate_sending_token tokenScenarioCtx tokenScenarioMsg = .ok true
    ∧ ((tokenScenarioCtx.read_post
          (balance_key "tok" tokenScenarioMsg.packetData.sender)).getD ⟨0⟩).change
        - ((tokenScenarioCtx.read_pre
          (balance_key "tok" tokenScenarioMsg.packetData.sender)).getD ⟨0⟩).change
      ≠ -(10 : Int) :=
  ⟨rfl, by decide⟩

/-- C9 amended: the token validity predicate checks a single balance key —
the escrow/burn target for a sent transfer, the escrow/mint source for a
received one — and accepts iff the pre/post delta on that one key equals the
claimed amount, rejecting with an error on any mismatch; the counterparty
account's delta is not examined. -/
theorem token_vp_single_key_delta :
    (∀ (ctx : TokenCtx) (msg : MsgTransfer) (tokStr : String)
        (token : Address) (amount : Amount),
      (splitSlash msg.packetData.denomination.data).getLast? = some tokStr →
      addressDecode tokStr = some token →
      Amount.from_str msg.packetData.amount = some amount →
      (validate_sending_token ctx msg = .ok true
        ↔ ((ctx.read_post (balance_key token (sendTarget msg))).getD ⟨0⟩).change
            - ((ctx.read_pre (balance_key token (sendTarget msg))).getD ⟨0⟩).change
          = amount.change))
    ∧ (∀ (ctx : TokenCtx) (packet : Packet) (tokStr : String)
        (token : Address) (amount : Amount),
      (splitSlash packet.data.denomination.data).getLast? = some tokStr →
      addressDecode tokStr = some token →
      Amount.from_str packet.data.amount = some amount →
      (validate_receiving_token ctx packet = .ok true
        ↔ ((ctx.read_post (balance_key token (recvSource packet))).getD ⟨0⟩).change
            - ((ctx.read_pre (balance_key token (recvSource packet))).getD ⟨0⟩).change
          = amount.change)) := by
  constructor
  · intro ctx msg tokStr token amount ht hd ha
    simp only [validate_sending_token, ht, hd, ha, sendTarget]
    split
    next hcond => simp [hcond]
    next hcond => simp [hcond]
  · intro ctx packet tokStr token amount ht hd ha
    simp only [validate_receiving_token, ht, hd, ha, recvSource]
    split
    next hcond => simp [hcond]
    next hcond => simp [hcond]

/-- Witness for C9 amended: on the concrete scenario the sending predicate
accepts and the escrow target's delta equals the claimed 10. -/
theorem token_vp_single_key_delta_witness :
    ((splitSlash tokenScenarioMsg.packetData.denomination.data).getLast?
        = some "tok"
      ∧ addressDecode "tok" = some "tok"
      ∧ Amount.from_str tokenScenarioMsg.packetData.amount = some ⟨10⟩)
    ∧ (validate_sending_token tokenScenarioCtx tokenScenarioMsg = .ok true
        ↔ ((tokenScenarioCtx.read_post
              (balance_key "tok" (sendTarget tokenScenarioMsg))).getD ⟨0⟩).change
            - ((tokenScenarioCtx.read_pre
              (balance_key "tok" (sendTarget tokenScenarioMsg))).getD ⟨0⟩).change
          = Amount.change ⟨10⟩) :=
  ⟨⟨by decide, by decide, by decide⟩,
    token_vp_single_key_delta.1 tokenScenarioCtx tokenScenarioMsg "tok" "tok"
      ⟨10⟩ (by decide) (by decide) (by decide)⟩

end Anoma
